import Mathlib

/-!
Shallow embedding of the frame pipeline and overlay coordinate system of
`Py_Cam.py`, together with theorems checking the specification's claims.

Conventions of the embedding:
* Python floats are modelled by exact rationals (`ℚ`); Python ints by `ℤ`
  (or `ℕ` where the source value is always a non-negative size).
* `int(x)` (Python truncation toward zero) is `pyInt`.
* A numpy image is a `Frame`: explicit height/width plus a total pixel
  function; out-of-range pixel values are irrelevant junk, so every
  dimension-sensitive statement quantifies only over in-range indices.
* OpenCV primitives used by the source (`convertScaleAbs`, `rotate`,
  `flip`, slicing, `resize`) are modelled by their documented semantics;
  for `resize` only the output dimensions matter to any claim, so its
  interpolated content is modelled by nearest-index sampling.
-/

namespace PyCam

/-- Python `int(x)`: truncation toward zero of a rational. -/
def pyInt (q : ℚ) : ℤ := if 0 ≤ q then ⌊q⌋ else -⌊-q⌋

/-- One 3-channel pixel (numpy `uint8` triple, value range 0..255). -/
abbrev Pix := ℕ × ℕ × ℕ

/-- Apply a per-channel map to a pixel. -/
def mapPix (f : ℕ → ℕ) (p : Pix) : Pix := (f p.1, f p.2.1, f p.2.2)

/-- A numpy image: `h` rows, `w` columns, and a (total) pixel function.
`pix i j` is row `i`, column `j`. -/
structure Frame where
  h : ℕ
  w : ℕ
  pix : ℕ → ℕ → Pix

/-- Display geometry recorded by `_update_video_frame`:
`_last_disp_size = (dispW, dispH)` and `_last_img_origin = (ox, oy)`. -/
structure Display where
  dispW : ℤ
  dispH : ℤ
  ox : ℤ
  oy : ℤ

/-- One overlay `(mode, p1, p2, color)` as stored in `self.overlays`:
mode string (`"rect"` or `"arrow"`), two normalized endpoints, RGB color. -/
structure Overlay where
  mode : String
  p1 : ℚ × ℚ
  p2 : ℚ × ℚ
  color : ℕ × ℕ × ℕ

/-- Model of `cv2.convertScaleAbs` on one channel value:
`saturate_cast<uchar>(|alpha*v + beta|)` — absolute value of the affine
result, rounded to nearest, then saturated at 255. -/
def convertScaleAbsChan (alpha beta : ℚ) (v : ℕ) : ℕ :=
  min 255 (round |alpha * (v : ℚ) + beta|).toNat

/-- `_apply_adjustments`: `cv2.convertScaleAbs(frame, alpha=contrast,
beta=brightness)`, applied to every channel of every pixel. -/
def applyAdjustments (contrast brightness : ℚ) (f : Frame) : Frame :=
  ⟨f.h, f.w, fun i j => mapPix (convertScaleAbsChan contrast brightness) (f.pix i j)⟩

/-- The spec's words for the adjustment step: the affine
result `c*v + b` clamped (not reflected) at the channel bounds `0..255`.
Stated only to be compared against `convertScaleAbsChan`. -/
def clampAffineChan (contrast brightness : ℚ) (v : ℕ) : ℕ :=
  (min 255 (max 0 (round (contrast * (v : ℚ) + brightness)))).toNat

/-- Model of `cv2.rotate` as used by `_apply_picture_ops`: exact rotation by
0/90/180/270 degrees clockwise; any other value leaves the frame unrotated
(the source's `if/elif` chain falls through). -/
def rotateFrame (deg : ℕ) (f : Frame) : Frame :=
  if deg = 90 then ⟨f.w, f.h, fun i j => f.pix (f.h - 1 - j) i⟩
  else if deg = 180 then ⟨f.h, f.w, fun i j => f.pix (f.h - 1 - i) (f.w - 1 - j)⟩
  else if deg = 270 then ⟨f.w, f.h, fun i j => f.pix j (f.w - 1 - i)⟩
  else f

/-- Model of `cv2.flip(frame, 1)`: horizontal mirror (column reversal). -/
def hflip (f : Frame) : Frame :=
  ⟨f.h, f.w, fun i j => f.pix i (f.w - 1 - j)⟩

/-- The mirror stage of `_apply_picture_ops`: flip when `self.mirror` is set. -/
def mirrorStep (mir : Bool) (f : Frame) : Frame :=
  if mir then hflip f else f

/-- The crop-window computation inside `_apply_picture_ops` (the `z > 1.01`
branch): returns `(x1, y1, cw, ch)` with
`cw = max(1, int(w/z))`, `ch = max(1, int(h/z))`,
`cx = clamp(w//2 + pan.x, cw//2, w - cw//2)` (and likewise `cy`),
`x1 = cx - cw//2`, `y1 = cy - ch//2`. -/
def cropWindow (z : ℚ) (pan : ℤ × ℤ) (w h : ℕ) : ℤ × ℤ × ℕ × ℕ :=
  let cw : ℕ := max 1 (pyInt ((w : ℚ) / z)).toNat
  let ch : ℕ := max 1 (pyInt ((h : ℚ) / z)).toNat
  let cx : ℤ := max ((cw / 2 : ℕ) : ℤ) (min ((w : ℤ) - ((cw / 2 : ℕ) : ℤ)) (((w / 2 : ℕ) : ℤ) + pan.1))
  let cy : ℤ := max ((ch / 2 : ℕ) : ℤ) (min ((h : ℤ) - ((ch / 2 : ℕ) : ℤ)) (((h / 2 : ℕ) : ℤ) + pan.2))
  (cx - ((cw / 2 : ℕ) : ℤ), cy - ((ch / 2 : ℕ) : ℤ), cw, ch)

/-- Length of the numpy slice `[start : start+cnt]` over an axis of length
`len`: numpy clips the requested range to the axis bounds. -/
def sliceLen (len : ℕ) (start : ℤ) (cnt : ℕ) : ℕ :=
  (min (len : ℤ) (start + cnt) - max 0 start).toNat

/-- Model of the numpy slice `frame[y1:y1+ch, x1:x1+cw]` (silently clipped to
the frame bounds, as numpy slicing does for non-negative starts). -/
def cropModel (x1 y1 : ℤ) (cw ch : ℕ) (f : Frame) : Frame :=
  ⟨sliceLen f.h y1 ch, sliceLen f.w x1 cw,
   fun i j => f.pix ((max 0 y1).toNat + i) ((max 0 x1).toNat + j)⟩

/-- Model of `cv2.resize(crop, (w, h))`: the output has exactly the target
dimensions; pixel content is sampled by nearest source index (the claims
depend only on the geometry, not on INTER_LINEAR interpolation weights). -/
def resizeModel (w h : ℕ) (f : Frame) : Frame :=
  ⟨h, w, fun i j => f.pix (i * f.h / max 1 h) (j * f.w / max 1 w)⟩

/-- The zoom stage of `_apply_picture_ops`: when `z > 1.01`, crop the window
given by `cropWindow` and resize it back to the pre-crop size; otherwise the
frame passes through unchanged. -/
def zoomStep (z : ℚ) (pan : ℤ × ℤ) (f : Frame) : Frame :=
  if (101 : ℚ) / 100 < z then
    let wnd := cropWindow z pan f.w f.h
    resizeModel f.w f.h (cropModel wnd.1 wnd.2.1 wnd.2.2.1 wnd.2.2.2 f)
  else f

/-- `_apply_picture_ops`: rotate, then mirror, then zoom-crop-resize. -/
def applyPictureOps (deg : ℕ) (mir : Bool) (z : ℚ) (pan : ℤ × ℤ) (f : Frame) : Frame :=
  zoomStep z pan (mirrorStep mir (rotateFrame deg f))

/-- The transform chain of `_update_video_frame` (and `_snapshot`):
`_apply_adjustments` first, then `_apply_picture_ops`. -/
def transformPipeline (c b : ℚ) (deg : ℕ) (mir : Bool) (z : ℚ) (pan : ℤ × ℤ)
    (f : Frame) : Frame :=
  applyPictureOps deg mir z pan (applyAdjustments c b f)

/-- `_to_norm`: label pixel coordinates to normalized `[0,1]` coordinates —
subtract the centering origin, clamp to the image bounds, divide by the
recorded display size (guarded by `max(1, ·)`), clamp to `[0,1]`. -/
def toNorm (d : Display) (pt : ℤ × ℤ) : ℚ × ℚ :=
  let px : ℤ := max 0 (min d.dispW (pt.1 - d.ox))
  let py : ℤ := max 0 (min d.dispH (pt.2 - d.oy))
  (max 0 (min 1 ((px : ℚ) / ((max 1 d.dispW : ℤ) : ℚ))),
   max 0 (min 1 ((py : ℚ) / ((max 1 d.dispH : ℤ) : ℚ))))

/-- `_from_norm`: normalized coordinates to image-space pixel coordinates of
the current display (no origin offset), `int(p * disp)` per axis. -/
def fromNorm (d : Display) (p : ℚ × ℚ) : ℤ × ℤ :=
  (pyInt (p.1 * (d.dispW : ℚ)), pyInt (p.2 * (d.dispH : ℚ)))

/-- One overlay's test inside the `_hit_test_overlay` loop: the bounding box
of the overlay's display-pixel endpoints, expanded by the 8-pixel grab
margin, contains the (image-space) point. Both the `"rect"` and the
`"arrow"` branch of the source use this bounding-box test; any other mode
string is never hit. -/
def overlayHit (d : Display) (o : Overlay) (x y : ℤ) : Bool :=
  let p := fromNorm d o.p1
  let q := fromNorm d o.p2
  if o.mode = "rect" then
    decide (min p.1 q.1 - 8 ≤ x ∧ x ≤ max p.1 q.1 + 8 ∧
            min p.2 q.2 - 8 ≤ y ∧ y ≤ max p.2 q.2 + 8)
  else if o.mode = "arrow" then
    decide (min p.1 q.1 - 8 ≤ x ∧ x ≤ max p.1 q.1 + 8 ∧
            min p.2 q.2 - 8 ≤ y ∧ y ≤ max p.2 q.2 + 8)
  else false

/-- The descending index loop of `_hit_test_overlay`
(`for idx in range(len(overlays)-1, -1, -1)`): first hit wins. -/
def hitScan (d : Display) (ovs : List Overlay) (x y : ℤ) : ℕ → Option ℕ
  | 0 => none
  | n + 1 =>
    match ovs[n]? with
    | some o => if overlayHit d o x y then some n else hitScan d ovs x y n
    | none => hitScan d ovs x y n

/-- `_hit_test_overlay`: subtract the centering origin, reject points outside
the visible image rectangle, then scan the overlays back-to-front. -/
def hitTestOverlay (d : Display) (ovs : List Overlay) (pt : ℤ × ℤ) : Option ℕ :=
  let x := pt.1 - d.ox
  let y := pt.2 - d.oy
  if x < 0 ∨ y < 0 ∨ d.dispW < x ∨ d.dispH < y then none
  else hitScan d ovs x y ovs.length

/-- The spec's words for the scan: over the indices in back-to-front order
(last-inserted first), find the first overlay whose expanded bounding box
contains the point. Stated only to be compared against `hitScan`. -/
def hitTestSpecScan (d : Display) (ovs : List Overlay) (x y : ℤ) : Option ℕ :=
  (List.range ovs.length).reverse.find? fun i =>
    match ovs[i]? with
    | some o => overlayHit d o x y
    | none => false

/-- Overlay creation (`_video_mouse_down` + `_video_mouse_up`): the committed
overlay is `(mode, _to_norm(press), _to_norm(release), color)` — both
endpoints pass through the clamping conversion `_to_norm`. -/
def createOverlay (d : Display) (mode : String) (press rel : ℤ × ℤ)
    (col : ℕ × ℕ × ℕ) : Overlay :=
  { mode := mode, p1 := toNorm d press, p2 := toNorm d rel, color := col }

/-- The moving branch of `_video_mouse_move`: the pixel delta is converted to
a normalized delta with the recorded display size and added to both
endpoints (without any clamping). -/
def moveOverlay (d : Display) (o : Overlay) (dx dy : ℤ) : Overlay :=
  let ddx : ℚ := (dx : ℚ) / ((max 1 d.dispW : ℤ) : ℚ)
  let ddy : ℚ := (dy : ℚ) / ((max 1 d.dispH : ℤ) : ℚ)
  { o with p1 := (o.p1.1 + ddx, o.p1.2 + ddy), p2 := (o.p2.1 + ddx, o.p2.2 + ddy) }

/-- The application state fields that the claims touch: the adjustment
parameters, the overlay list, and the display geometry recorded at the last
composite (`_last_disp_size` / `_last_img_origin` / `_last_scale`). -/
structure CamState where
  brightness : ℤ
  contrast : ℚ
  mirror : Bool
  rotateDeg : ℕ
  zoom : ℚ
  pan : ℤ × ℤ
  overlays : List Overlay
  display : Display
  lastScale : ℚ
  uiBusy : Bool
  lastUiTime : ℚ
  selectedOverlay : Option ℕ

/-- One drawing command issued while burning overlays into a snapshot:
mode, the two pixel endpoints, and the BGR color tuple passed to OpenCV. -/
structure DrawCmd where
  mode : String
  p1 : ℤ × ℤ
  p2 : ℤ × ℤ
  color : ℕ × ℕ × ℕ

/-- The burn loop of `_snapshot`: for each stored overlay, scale each
normalized endpoint by the transformed frame's own dimensions
(`int(p * cap_w)`, `int(p * cap_h)`) and draw with the BGR color. -/
def snapshotCommands (ovs : List Overlay) (capW capH : ℕ) : List DrawCmd :=
  ovs.map fun o =>
    { mode := o.mode
      p1 := (pyInt (o.p1.1 * (capW : ℚ)), pyInt (o.p1.2 * (capH : ℚ)))
      p2 := (pyInt (o.p2.1 * (capW : ℚ)), pyInt (o.p2.2 * (capH : ℚ)))
      color := (o.color.2.2, o.color.2.1, o.color.1) }

/-- The frame `_snapshot` draws on: the latest frame after
`_apply_adjustments` and `_apply_picture_ops` with the current parameters. -/
def transformedFrame (st : CamState) (f : Frame) : Frame :=
  transformPipeline st.contrast (st.brightness : ℚ) st.rotateDeg st.mirror st.zoom st.pan f

/-- `_snapshot`: transform the latest frame, read `cap_h, cap_w` from the
transformed frame itself, and burn every stored overlay at those
dimensions. -/
def snapshotBurn (st : CamState) (f : Frame) : List DrawCmd :=
  let g := transformedFrame st f
  snapshotCommands st.overlays g.w g.h

/-- The state read by the UI-throttle decision inside `_reader_loop`:
`_last_ui_time`, `_ui_busy`, and whether a video window exists. -/
structure ReaderState where
  lastUiTime : ℚ
  uiBusy : Bool
  videoWin : Bool

/-- Default `_ui_interval_ms` (the ~30 FPS UI update cap). -/
def defaultUiIntervalMs : ℕ := 33

/-- The per-iteration throttle decision of `_reader_loop`: when at least the
interval has elapsed since `_last_ui_time` and no refresh is in flight,
record `now` as the new `_last_ui_time` and emit a refresh request iff a
video window exists; otherwise emit nothing and keep `_last_ui_time`.
Returns `(emitted, new _last_ui_time)`. -/
def readerEmit (intervalMs : ℚ) (st : ReaderState) (now : ℚ) : Bool × ℚ :=
  if intervalMs ≤ (now - st.lastUiTime) * 1000 ∧ st.uiBusy = false then
    (st.videoWin, now)
  else (false, st.lastUiTime)

/-- Run the reader loop's throttle over a trace of iterations, each observed
as `(now, uiBusy, videoWin)`; returns the times of the emitted UI-refresh
requests, in order. -/
def runReader (i : ℚ) : ℚ → List (ℚ × Bool × Bool) → List ℚ
  | _, [] => []
  | last, (now, busy, win) :: rest =>
    (if (readerEmit i ⟨last, busy, win⟩ now).1 then [now] else []) ++
      runReader i (readerEmit i ⟨last, busy, win⟩ now).2 rest

/-- `_reset_adjustments`: restore the neutral adjustment parameters. -/
def resetAdjustments (st : CamState) : CamState :=
  { st with brightness := 0, contrast := 1, mirror := false,
            rotateDeg := 0, zoom := 1, pan := (0, 0) }

/-! ## Helper lemmas -/

lemma toNorm_bounds (d : Display) (pt : ℤ × ℤ) :
    0 ≤ (toNorm d pt).1 ∧ (toNorm d pt).1 ≤ 1 ∧
    0 ≤ (toNorm d pt).2 ∧ (toNorm d pt).2 ≤ 1 := by
  simp only [toNorm]
  exact ⟨le_max_left _ _, max_le zero_le_one (min_le_left _ _),
         le_max_left _ _, max_le zero_le_one (min_le_left _ _)⟩

lemma convertScaleAbs_eq_clamp (c b : ℚ) (v : ℕ) (h : 0 ≤ c * (v : ℚ) + b) :
    convertScaleAbsChan c b v = clampAffineChan c b v := by
  unfold convertScaleAbsChan clampAffineChan
  rw [abs_of_nonneg h]
  have hr : 0 ≤ round (c * (v : ℚ) + b) := by
    rw [round_eq]
    exact Int.le_floor.mpr (by push_cast; linarith)
  omega

lemma hitScan_eq_find (d : Display) (ovs : List Overlay) (x y : ℤ) :
    ∀ n : ℕ, hitScan d ovs x y n =
      (List.range n).reverse.find? (fun i =>
        match ovs[i]? with
        | some o => overlayHit d o x y
        | none => false) := by
  intro n
  induction n with
  | zero => simp [hitScan]
  | succ n ih =>
    rw [List.range_succ, List.reverse_append, List.reverse_singleton,
        List.singleton_append]
    cases hg : ovs[n]? with
    | some o =>
      by_cases hh : overlayHit d o x y
      · rw [List.find?_cons_of_pos]
        · simp [hitScan, hg, hh]
        · simp [hg, hh]
      · rw [List.find?_cons_of_neg, ← ih]
        · simp [hitScan, hg, hh]
        · simp [hg, hh]
    | none =>
      rw [List.find?_cons_of_neg, ← ih]
      · simp [hitScan, hg]
      · simp [hg]

lemma pyInt_scale_bounds (p : ℚ) (m : ℤ) (h0 : 0 ≤ p) (h1 : p ≤ 1) (hm : 0 ≤ m) :
    0 ≤ pyInt (p * (m : ℚ)) ∧ pyInt (p * (m : ℚ)) ≤ m := by
  have hpm : 0 ≤ p * (m : ℚ) := mul_nonneg h0 (by exact_mod_cast hm)
  unfold pyInt
  rw [if_pos hpm]
  refine ⟨Int.floor_nonneg.mpr hpm, ?_⟩
  have hle : p * (m : ℚ) ≤ (m : ℚ) := by
    have := mul_le_mul_of_nonneg_right h1 (show (0 : ℚ) ≤ (m : ℚ) by exact_mod_cast hm)
    simpa using this
  calc ⌊p * (m : ℚ)⌋ ≤ ⌊(m : ℚ)⌋ := Int.floor_le_floor hle
    _ = m := Int.floor_intCast m

/-! ## Claims -/

/-- C9: the display-pixel-to-normalized conversion `_to_norm` is total (a Lean
function on all of `ℤ × ℤ` and every display geometry, including degenerate
zero or negative sizes, thanks to the `max 1` divisor guard) and its result
always lies in `[0,1] × [0,1]`. -/
theorem to_norm_total_in_range_c9 (d : Display) (pt : ℤ × ℤ) :
    0 ≤ (toNorm d pt).1 ∧ (toNorm d pt).1 ≤ 1 ∧
    0 ≤ (toNorm d pt).2 ∧ (toNorm d pt).2 ≤ 1 :=
  toNorm_bounds d pt

/-- C10: from every prior state, `_reset_adjustments` sets brightness to 0,
contrast to 1.0, mirror off, rotation to 0 degrees, zoom to 1.0 and the pan
offset to (0, 0). -/
theorem reset_adjustments_c10 (st : CamState) :
    (resetAdjustments st).brightness = 0 ∧ (resetAdjustments st).contrast = 1 ∧
    (resetAdjustments st).mirror = false ∧ (resetAdjustments st).rotateDeg = 0 ∧
    (resetAdjustments st).zoom = 1 ∧ (resetAdjustments st).pan = (0, 0) :=
  ⟨rfl, rfl, rfl, rfl, rfl, rfl⟩

/-- C6: moving an overlay by a pixel delta `(dx, dy)` and then by
`(-dx, -dy)` with the same recorded display dimensions restores the overlay
exactly (the rational-arithmetic model of the float computation is exact, so
"within floating-point tolerance" holds with zero error). -/
theorem move_overlay_inverse_c6 (d : Display) (o : Overlay) (dx dy : ℤ) :
    moveOverlay d (moveOverlay d o dx dy) (-dx) (-dy) = o := by
  cases o with
  | mk mode p1 p2 color =>
    cases p1 with
    | mk a1 a2 =>
      cases p2 with
      | mk b1 b2 =>
        simp only [moveOverlay, Overlay.mk.injEq, Prod.mk.injEq, true_and,
          and_true, Int.cast_neg]
        exact ⟨⟨by ring, by ring⟩, by ring, by ring⟩

/-- C1 (counterexample): the claim says the adjustment step is a pure clamp
of `c*v + b` at the channel bounds; but `cv2.convertScaleAbs` takes the
absolute value of a negative intermediate. At contrast 1, brightness −100,
channel value 10 the code yields 90 while the claimed clamp yields 0. -/
theorem adjustments_abs_counterexample_c1 :
    ((applyAdjustments 1 (-100) ⟨1, 1, fun _ _ => (10, 10, 10)⟩).pix 0 0).1 = 90 ∧
    clampAffineChan 1 (-100) 10 = 0 ∧
    ((applyAdjustments 1 (-100) ⟨1, 1, fun _ _ => (10, 10, 10)⟩).pix 0 0).1 ≠
      clampAffineChan 1 (-100) 10 := by
  refine ⟨?_, ?_, ?_⟩ <;>
    (norm_num [applyAdjustments, mapPix, convertScaleAbsChan, clampAffineChan,
      round_eq]; try omega)

/-- C1 (amended): the adjustment step maps each channel value `v` to the
saturation at 255 of the rounded absolute value `|c*v + b|`; whenever the
intermediate `c*v + b` is non-negative (for instance whenever `b ≥ 0`) this
coincides with the claimed clamp at the channel bounds 0..255, and the frame
dimensions are unchanged. -/
theorem adjustments_clamp_c1 (c b : ℚ) (f : Frame) (i j : ℕ)
    (h1 : 0 ≤ c * ((f.pix i j).1 : ℚ) + b)
    (h2 : 0 ≤ c * ((f.pix i j).2.1 : ℚ) + b)
    (h3 : 0 ≤ c * ((f.pix i j).2.2 : ℚ) + b) :
    (applyAdjustments c b f).h = f.h ∧ (applyAdjustments c b f).w = f.w ∧
    (applyAdjustments c b f).pix i j =
      (clampAffineChan c b (f.pix i j).1,
       clampAffineChan c b (f.pix i j).2.1,
       clampAffineChan c b (f.pix i j).2.2) := by
  refine ⟨rfl, rfl, ?_⟩
  show mapPix (convertScaleAbsChan c b) (f.pix i j) = _
  unfold mapPix
  rw [convertScaleAbs_eq_clamp c b _ h1, convertScaleAbs_eq_clamp c b _ h2,
      convertScaleAbs_eq_clamp c b _ h3]

/-- C1 (witness): the amended theorem applied at contrast 2, brightness 50 on
a concrete pixel (10, 100, 200). -/
theorem adjustments_clamp_c1_witness :
    (applyAdjustments 2 50 ⟨1, 1, fun _ _ => (10, 100, 200)⟩).h = 1 ∧
    (applyAdjustments 2 50 ⟨1, 1, fun _ _ => (10, 100, 200)⟩).w = 1 ∧
    (applyAdjustments 2 50 ⟨1, 1, fun _ _ => (10, 100, 200)⟩).pix 0 0 =
      (clampAffineChan 2 50 10, clampAffineChan 2 50 100, clampAffineChan 2 50 200) :=
  adjustments_clamp_c1 2 50 ⟨1, 1, fun _ _ => (10, 100, 200)⟩ 0 0
    (by norm_num) (by norm_num) (by norm_num)

/-- C2 (counterexample): the claim says endpoints are clamped to `[0,1]` also
whenever the overlay is moved; but the move branch of `_video_mouse_move`
adds the normalized delta without clamping. An overlay created at the
clamped origin, moved left by 10 pixels on a 100×100 display, ends with
`p1.x = -1/10 < 0`. -/
theorem overlay_move_unclamped_c2 :
    (moveOverlay ⟨100, 100, 0, 0⟩
      (createOverlay ⟨100, 100, 0, 0⟩ "rect" (0, 0) (50, 50) (255, 0, 0))
      (-10) 0).p1.1 = -1/10 ∧
    ¬ (0 ≤ (moveOverlay ⟨100, 100, 0, 0⟩
      (createOverlay ⟨100, 100, 0, 0⟩ "rect" (0, 0) (50, 50) (255, 0, 0))
      (-10) 0).p1.1) := by
  constructor <;> norm_num [moveOverlay, createOverlay, toNorm]

/-- C2 (amended): normalized endpoints are clamped to `[0,1]` when an overlay
is created (both the press point and the release point pass through
`_to_norm`), so a freshly created overlay always lies in `[0,1] × [0,1]`;
the move operation, however, adds the normalized delta without clamping, so
a moved overlay's endpoints can leave `[0,1]`. -/
theorem overlay_created_clamped_c2 (d : Display) (mode : String)
    (press rel : ℤ × ℤ) (col : ℕ × ℕ × ℕ) :
    (0 ≤ (createOverlay d mode press rel col).p1.1 ∧
     (createOverlay d mode press rel col).p1.1 ≤ 1 ∧
     0 ≤ (createOverlay d mode press rel col).p1.2 ∧
     (createOverlay d mode press rel col).p1.2 ≤ 1) ∧
    (0 ≤ (createOverlay d mode press rel col).p2.1 ∧
     (createOverlay d mode press rel col).p2.1 ≤ 1 ∧
     0 ≤ (createOverlay d mode press rel col).p2.2 ∧
     (createOverlay d mode press rel col).p2.2 ≤ 1) :=
  ⟨toNorm_bounds d press, toNorm_bounds d rel⟩

/-- C3 (code bug): for a 6×6 frame, zoom 2.0 and an out-of-range pan request
(100, 0), the crop window computed by `_apply_picture_ops` is
`x1 = 4, y1 = 2, cw = 3, ch = 3`, whose right edge `x1 + cw = 7` exceeds the
frame width 6 — the pan clamp `cx ≤ w - cw//2` is off by one whenever `cw`
is odd, contradicting the claimed invariant `x1 + cw ≤ w`. -/
theorem crop_window_overrun_c3 :
    cropWindow 2 (100, 0) 6 6 = (4, 2, 3, 3) ∧
    (cropWindow 2 (100, 0) 6 6).1 + ((cropWindow 2 (100, 0) 6 6).2.2.1 : ℤ) = 7 ∧
    ¬ ((cropWindow 2 (100, 0) 6 6).1 + ((cropWindow 2 (100, 0) 6 6).2.2.1 : ℤ) ≤ 6) := by
  refine ⟨?_, ?_, ?_⟩ <;> (norm_num [cropWindow, pyInt]; try omega)

/-- C4: hit-testing subtracts the centering origin and returns `none` for
points outside the visible image rectangle; otherwise it scans overlays
back-to-front (last-inserted first) and returns the first whose 8-pixel
expanded bounding box contains the point. In particular, for a single
rectangle overlay (with in-range normalized endpoints on a non-degenerate
display) a point strictly inside its pixel bounds is hit, and a point at
least 9 pixels outside its bounding box (but inside the image rectangle) is
not. -/
theorem hit_test_c4 :
    (∀ (d : Display) (ovs : List Overlay) (pt : ℤ × ℤ),
      hitTestOverlay d ovs pt =
        if pt.1 - d.ox < 0 ∨ pt.2 - d.oy < 0 ∨
           d.dispW < pt.1 - d.ox ∨ d.dispH < pt.2 - d.oy then none
        else hitTestSpecScan d ovs (pt.1 - d.ox) (pt.2 - d.oy)) ∧
    (∀ (d : Display) (o : Overlay) (pt : ℤ × ℤ),
      o.mode = "rect" → 0 ≤ d.dispW → 0 ≤ d.dispH →
      0 ≤ o.p1.1 → o.p1.1 ≤ 1 → 0 ≤ o.p1.2 → o.p1.2 ≤ 1 →
      0 ≤ o.p2.1 → o.p2.1 ≤ 1 → 0 ≤ o.p2.2 → o.p2.2 ≤ 1 →
      min (fromNorm d o.p1).1 (fromNorm d o.p2).1 < pt.1 - d.ox →
      pt.1 - d.ox < max (fromNorm d o.p1).1 (fromNorm d o.p2).1 →
      min (fromNorm d o.p1).2 (fromNorm d o.p2).2 < pt.2 - d.oy →
      pt.2 - d.oy < max (fromNorm d o.p1).2 (fromNorm d o.p2).2 →
      hitTestOverlay d [o] pt = some 0) ∧
    (∀ (d : Display) (o : Overlay) (pt : ℤ × ℤ),
      o.mode = "rect" →
      0 ≤ pt.1 - d.ox → 0 ≤ pt.2 - d.oy →
      pt.1 - d.ox ≤ d.dispW → pt.2 - d.oy ≤ d.dispH →
      (pt.1 - d.ox ≤ min (fromNorm d o.p1).1 (fromNorm d o.p2).1 - 9 ∨
       max (fromNorm d o.p1).1 (fromNorm d o.p2).1 + 9 ≤ pt.1 - d.ox ∨
       pt.2 - d.oy ≤ min (fromNorm d o.p1).2 (fromNorm d o.p2).2 - 9 ∨
       max (fromNorm d o.p1).2 (fromNorm d o.p2).2 + 9 ≤ pt.2 - d.oy) →
      hitTestOverlay d [o] pt = none) := by
  refine ⟨?_, ?_, ?_⟩
  · intro d ovs pt
    unfold hitTestOverlay hitTestSpecScan
    by_cases hout : pt.1 - d.ox < 0 ∨ pt.2 - d.oy < 0 ∨
        d.dispW < pt.1 - d.ox ∨ d.dispH < pt.2 - d.oy
    · rw [if_pos hout, if_pos hout]
    · rw [if_neg hout, if_neg hout, hitScan_eq_find]
  · intro d o pt hmode hW hH ha1 ha2 ha3 ha4 hb1 hb2 hb3 hb4 hx1 hx2 hy1 hy2
    have e1 := pyInt_scale_bounds o.p1.1 d.dispW ha1 ha2 hW
    have e2 := pyInt_scale_bounds o.p1.2 d.dispH ha3 ha4 hH
    have e3 := pyInt_scale_bounds o.p2.1 d.dispW hb1 hb2 hW
    have e4 := pyInt_scale_bounds o.p2.2 d.dispH hb3 hb4 hH
    simp only [fromNorm] at hx1 hx2 hy1 hy2
    have hin : ¬ (pt.1 - d.ox < 0 ∨ pt.2 - d.oy < 0 ∨
        d.dispW < pt.1 - d.ox ∨ d.dispH < pt.2 - d.oy) := by
      push_neg
      omega
    unfold hitTestOverlay
    rw [if_neg hin]
    have hhit : overlayHit d o (pt.1 - d.ox) (pt.2 - d.oy) = true := by
      unfold overlayHit
      rw [if_pos hmode]
      simp only [fromNorm, decide_eq_true_eq]
      omega
    simp [hitScan, hhit]
  · intro d o pt hmode h1 h2 h3 h4 hfar
    have hin : ¬ (pt.1 - d.ox < 0 ∨ pt.2 - d.oy < 0 ∨
        d.dispW < pt.1 - d.ox ∨ d.dispH < pt.2 - d.oy) := by
      push_neg
      omega
    simp only [fromNorm] at hfar
    unfold hitTestOverlay
    rw [if_neg hin]
    have hhit : overlayHit d o (pt.1 - d.ox) (pt.2 - d.oy) = false := by
      unfold overlayHit
      rw [if_pos hmode]
      simp only [fromNorm, decide_eq_false_iff_not]
      omega
    simp [hitScan, hhit]

/-- C4 (witness): on a 100×100 display with origin (5, 7) and one rectangle
overlay with pixel bounding box (10, 10)–(50, 50): the label point (35, 37)
(image point (30, 30), strictly inside) is hit; the label point (64, 37)
(image point (59, 30), 9 pixels right of the box) is not; the label point
(200, 200) is outside the image rectangle and rejected. -/
theorem hit_test_c4_witness :
    hitTestOverlay ⟨100, 100, 5, 7⟩
      [⟨"rect", (1/10, 1/10), (1/2, 1/2), (255, 0, 0)⟩] (35, 37) = some 0 ∧
    hitTestOverlay ⟨100, 100, 5, 7⟩
      [⟨"rect", (1/10, 1/10), (1/2, 1/2), (255, 0, 0)⟩] (64, 37) = none ∧
    hitTestOverlay ⟨100, 100, 5, 7⟩
      [⟨"rect", (1/10, 1/10), (1/2, 1/2), (255, 0, 0)⟩] (200, 200) = none := by
  refine ⟨?_, ?_, ?_⟩
  · exact hit_test_c4.2.1 ⟨100, 100, 5, 7⟩ ⟨"rect", (1/10, 1/10), (1/2, 1/2), (255, 0, 0)⟩
      (35, 37) rfl (by norm_num) (by norm_num) (by norm_num) (by norm_num) (by norm_num)
      (by norm_num) (by norm_num) (by norm_num) (by norm_num) (by norm_num)
      (by norm_num [fromNorm, pyInt]) (by norm_num [fromNorm, pyInt])
      (by norm_num [fromNorm, pyInt]) (by norm_num [fromNorm, pyInt])
  · exact hit_test_c4.2.2 ⟨100, 100, 5, 7⟩ ⟨"rect", (1/10, 1/10), (1/2, 1/2), (255, 0, 0)⟩
      (64, 37) rfl (by norm_num) (by norm_num) (by norm_num) (by norm_num)
      (by norm_num [fromNorm, pyInt])
  · rw [hit_test_c4.1]
    norm_num

/-- C5: the transform pipeline applies adjust, then rotate, then mirror,
then zoom (this is the definition of `transformPipeline`, mirroring the
source order); with rotate = 90, mirror = true, zoom = 1.0 a 100×50 frame
(width 100, height 50) yields a 50×100 frame (100 rows of width 50) that
is, pixel for pixel, the horizontal flip of the unmirrored rotation. -/
theorem pipeline_rotate_mirror_c5 (c b : ℚ) (pan : ℤ × ℤ) (f : Frame)
    (hh : f.h = 50) (hw : f.w = 100) :
    (transformPipeline c b 90 true 1 pan f).h = 100 ∧
    (transformPipeline c b 90 true 1 pan f).w = 50 ∧
    ∀ i j, i < 100 → j < 50 →
      (transformPipeline c b 90 true 1 pan f).pix i j =
        (transformPipeline c b 90 false 1 pan f).pix i (49 - j) := by
  have hz : ¬ ((101 : ℚ) / 100 < 1) := by norm_num
  refine ⟨?_, ?_, ?_⟩
  · simp [transformPipeline, applyPictureOps, zoomStep, hz, mirrorStep, hflip,
      rotateFrame, applyAdjustments, hw]
  · simp [transformPipeline, applyPictureOps, zoomStep, hz, mirrorStep, hflip,
      rotateFrame, applyAdjustments, hh]
  · intro i j hi hj
    simp only [transformPipeline, applyPictureOps, zoomStep, hz, if_neg,
      mirrorStep, if_pos, if_false, hflip, rotateFrame, applyAdjustments,
      if_true, hh, hw]
    congr 2

/-- C5 (witness): the scenario theorem applied to a concrete 100×50 frame,
with the pixel relation sampled at row 3, column 5. -/
theorem pipeline_rotate_mirror_c5_witness :
    (transformPipeline 1 0 90 true 1 (0, 0)
      ⟨50, 100, fun i j => (i + j, 2 * i, 3 * j)⟩).h = 100 ∧
    (transformPipeline 1 0 90 true 1 (0, 0)
      ⟨50, 100, fun i j => (i + j, 2 * i, 3 * j)⟩).w = 50 ∧
    (transformPipeline 1 0 90 true 1 (0, 0)
      ⟨50, 100, fun i j => (i + j, 2 * i, 3 * j)⟩).pix 3 5 =
      (transformPipeline 1 0 90 false 1 (0, 0)
        ⟨50, 100, fun i j => (i + j, 2 * i, 3 * j)⟩).pix 3 44 :=
  ⟨(pipeline_rotate_mirror_c5 1 0 (0, 0) _ rfl rfl).1,
   (pipeline_rotate_mirror_c5 1 0 (0, 0) _ rfl rfl).2.1,
   (pipeline_rotate_mirror_c5 1 0 (0, 0) _ rfl rfl).2.2 3 5
     (by norm_num) (by norm_num)⟩

/-- C7: the snapshot burn scales every overlay endpoint by the transformed
frame's own capture dimensions (`int(p * cap_w)`, `int(p * cap_h)`); the
command list is therefore identical for any two states agreeing on the
overlays and adjustment parameters, whatever their display size, scale and
centering origin. -/
theorem snapshot_capture_dims_c7 (st st' : CamState) (f : Frame)
    (hov : st.overlays = st'.overlays) (hb : st.brightness = st'.brightness)
    (hc : st.contrast = st'.contrast) (hr : st.rotateDeg = st'.rotateDeg)
    (hm : st.mirror = st'.mirror) (hz : st.zoom = st'.zoom)
    (hp : st.pan = st'.pan) :
    snapshotBurn st f = snapshotBurn st' f ∧
    snapshotBurn st f =
      st.overlays.map (fun o =>
        { mode := o.mode
          p1 := (pyInt (o.p1.1 * ((transformedFrame st f).w : ℚ)),
                 pyInt (o.p1.2 * ((transformedFrame st f).h : ℚ)))
          p2 := (pyInt (o.p2.1 * ((transformedFrame st f).w : ℚ)),
                 pyInt (o.p2.2 * ((transformedFrame st f).h : ℚ)))
          color := (o.color.2.2, o.color.2.1, o.color.1) }) := by
  constructor
  · simp only [snapshotBurn, transformedFrame, hov, hb, hc, hr, hm, hz, hp]
  · rfl

/-- Concrete sample data for the snapshot witness: one stored overlay, one
latest frame, and two states that differ only in display geometry, recorded
scale and UI bookkeeping. -/
def sampleOverlayA : Overlay := ⟨"rect", (1/2, 1/4), (3/4, 1/2), (10, 20, 30)⟩

/-- Sample state with a 640×480 display recorded at scale 1/2. -/
def camStateA : CamState :=
  { brightness := 5, contrast := 2, mirror := true, rotateDeg := 90,
    zoom := 2, pan := (1, 2), overlays := [sampleOverlayA],
    display := ⟨640, 480, 3, 4⟩, lastScale := 1/2, uiBusy := false,
    lastUiTime := 0, selectedOverlay := none }

/-- The same adjustment parameters and overlays as `camStateA`, but a 37×21
display at origin (0, 0), scale 3, and different UI bookkeeping. -/
def camStateB : CamState :=
  { camStateA with display := ⟨37, 21, 0, 0⟩, lastScale := 3,
                   uiBusy := true, lastUiTime := 5, selectedOverlay := some 0 }

/-- Sample 100-wide, 50-high latest frame. -/
def sampleFrameA : Frame := ⟨50, 100, fun _ _ => (0, 0, 0)⟩

/-- C7 (witness): the snapshot theorem applied to the two concrete states
that differ only in display geometry, recorded scale and UI bookkeeping. -/
theorem snapshot_capture_dims_c7_witness :
    snapshotBurn camStateA sampleFrameA = snapshotBurn camStateB sampleFrameA ∧
    snapshotBurn camStateA sampleFrameA =
      camStateA.overlays.map (fun o =>
        { mode := o.mode
          p1 := (pyInt (o.p1.1 * ((transformedFrame camStateA sampleFrameA).w : ℚ)),
                 pyInt (o.p1.2 * ((transformedFrame camStateA sampleFrameA).h : ℚ)))
          p2 := (pyInt (o.p2.1 * ((transformedFrame camStateA sampleFrameA).w : ℚ)),
                 pyInt (o.p2.2 * ((transformedFrame camStateA sampleFrameA).h : ℚ)))
          color := (o.color.2.2, o.color.2.1, o.color.1) }) :=
  snapshot_capture_dims_c7 camStateA camStateB sampleFrameA
    rfl rfl rfl rfl rfl rfl rfl

lemma runReader_gap (i : ℚ) (hi : 0 ≤ i) :
    ∀ (tr : List (ℚ × Bool × Bool)) (last : ℚ),
      (∀ t ∈ runReader i last tr, i ≤ (t - last) * 1000) ∧
      List.Chain' (fun a b => i ≤ (b - a) * 1000) (runReader i last tr) := by
  intro tr
  induction tr with
  | nil => intro last; simp [runReader]
  | cons e rest ih =>
    obtain ⟨now, busy, win⟩ := e
    intro last
    by_cases hc : i ≤ (now - last) * 1000 ∧ busy = false
    · have hnl : last ≤ now := by nlinarith [hc.1]
      have hemit : readerEmit i ⟨last, busy, win⟩ now = (win, now) := by
        unfold readerEmit
        exact if_pos hc
      cases win with
      | false =>
        have hrun : runReader i last ((now, busy, false) :: rest) =
            runReader i now rest := by
          simp [runReader, hemit]
        rw [hrun]
        refine ⟨?_, (ih now).2⟩
        intro t ht
        have := (ih now).1 t ht
        linarith
      | true =>
        have hrun : runReader i last ((now, busy, true) :: rest) =
            now :: runReader i now rest := by
          simp [runReader, hemit]
        rw [hrun]
        constructor
        · intro t ht
          rcases List.mem_cons.mp ht with h | h
          · rw [h]; exact hc.1
          · have := (ih now).1 t h; linarith
        · rw [List.chain'_cons']
          refine ⟨?_, (ih now).2⟩
          intro b hb
          exact (ih now).1 b (List.mem_of_mem_head? hb)
    · have hemit : readerEmit i ⟨last, busy, win⟩ now = (false, last) := by
        unfold readerEmit
        exact if_neg hc
      have hrun : runReader i last ((now, busy, win) :: rest) =
          runReader i last rest := by
        simp [runReader, hemit]
      rw [hrun]
      exact ih last

/-- C8: in every iteration of the reader loop, a UI-refresh request is
emitted only if at least the refresh interval has elapsed since
`_last_ui_time` and the busy flag is clear (otherwise the iteration emits
nothing — the frame is dropped, not queued); consequently, over any trace of
iterations, consecutive emitted requests are at least the interval apart,
so at most one request is pending per interval. -/
theorem reader_throttle_c8 (i : ℚ) (hi : 0 ≤ i) (last0 : ℚ)
    (tr : List (ℚ × Bool × Bool)) :
    (∀ (st : ReaderState) (now : ℚ), (readerEmit i st now).1 = true →
      i ≤ (now - st.lastUiTime) * 1000 ∧ st.uiBusy = false) ∧
    List.Chain' (fun a b => i ≤ (b - a) * 1000) (runReader i last0 tr) := by
  constructor
  · intro st now h
    by_cases hc : i ≤ (now - st.lastUiTime) * 1000 ∧ st.uiBusy = false
    · exact hc
    · exfalso
      unfold readerEmit at h
      rw [if_neg hc] at h
      exact Bool.false_ne_true h
  · exact (runReader_gap i hi tr last0).2

/-- C8 (witness): the throttle theorem at the default 33 ms interval over a
concrete trace — the first iteration emits, the second is dropped because
the busy flag is set. -/
theorem reader_throttle_c8_witness :
    (∀ (st : ReaderState) (now : ℚ),
      (readerEmit ((defaultUiIntervalMs : ℕ) : ℚ) st now).1 = true →
      ((defaultUiIntervalMs : ℕ) : ℚ) ≤ (now - st.lastUiTime) * 1000 ∧
      st.uiBusy = false) ∧
    List.Chain' (fun a b => ((defaultUiIntervalMs : ℕ) : ℚ) ≤ (b - a) * 1000)
      (runReader ((defaultUiIntervalMs : ℕ) : ℚ) 0 [(1, false, true), (2, true, true)]) :=
  reader_throttle_c8 ((defaultUiIntervalMs : ℕ) : ℚ)
    (by norm_num [defaultUiIntervalMs]) 0 [(1, false, true), (2, true, true)]

end PyCam
